import Mathlib

/-!
Verification of the order-placement transaction of the zomato-clone API
(`app.post('/api/orders')` and `app.get('/api/orders/:id')` in the Express
server source), shallowly embedded over an explicit relational-state model.

Prices are modelled as `Rat`, matching the exact decimal arithmetic of the
`DECIMAL(10,2)` columns.  The database is a record of row lists; SQL
`SELECT price FROM menu_items WHERE id = $1` becomes a `List.find?`, the
`SERIAL` keys become explicit counters, and a transaction is modelled by
building the new state on the side and installing it only at `COMMIT`
(so `ROLLBACK` returns the original state).  Because the handler issues a
fresh `SELECT price` inside the insert loop (a second live lookup), the
embedding takes a separate `menu2` parameter: the menu rows visible to
that second pass, which under the store's default read-committed isolation
may differ from those seen while computing the total.
-/

namespace Zomato

/-- A row of `menu_items` (columns used by the order flow). -/
structure MenuItemRow where
  id : Nat
  restaurant_id : Nat
  price : Rat
  is_available : Bool
  deriving Repr, DecidableEq

/-- A row of `orders`.  The handler's `INSERT` names no `status` column, so
the schema default `'pending'` applies. -/
structure OrderRow where
  id : Nat
  user_id : Nat
  restaurant_id : Nat
  total_amount : Rat
  status : String
  delivery_address : String
  deriving Repr, DecidableEq

/-- A row of `order_items`. -/
structure OrderItemRow where
  id : Nat
  order_id : Nat
  menu_item_id : Nat
  quantity : Nat
  price : Rat
  special_instructions : Option String
  deriving Repr, DecidableEq

/-- One element of the request body's `items` array. -/
structure OrderItemInput where
  menu_item_id : Nat
  quantity : Nat
  special_instructions : Option String
  deriving Repr, DecidableEq

/-- The database state touched by the order flow. -/
structure DB where
  menu_items : List MenuItemRow
  orders : List OrderRow
  order_items : List OrderItemRow
  next_order_id : Nat
  next_order_item_id : Nat
  deriving Repr, DecidableEq

/-- `SELECT price FROM menu_items WHERE id = $1`: price of the first row
whose id matches, if any. -/
def selectPrice (menu : List MenuItemRow) (mid : Nat) : Option Rat :=
  (menu.find? (fun m => m.id == mid)).map (fun m => m.price)

/-- First pass of the handler: `total_amount += rows[0].price * item.quantity`
over the items in order, throwing `Menu item N not found` on a missing id. -/
def computeTotal (menu : List MenuItemRow) :
    List OrderItemInput → Rat → Except String Rat
  | [], acc => .ok acc
  | it :: rest, acc =>
    match selectPrice menu it.menu_item_id with
    | none => .error ("Menu item " ++ toString it.menu_item_id ++ " not found")
    | some p => computeTotal menu rest (acc + p * (it.quantity : Rat))

/-- The order row built by the handler's `INSERT INTO orders`: the insert
names no `status` column, so the schema default `'pending'` applies. -/
def newOrderRow (db : DB) (uid rid : Nat) (total : Rat) (addr : String) :
    OrderRow :=
  { id := db.next_order_id, user_id := uid, restaurant_id := rid,
    total_amount := total, status := "pending", delivery_address := addr }

/-- `INSERT INTO orders (user_id, restaurant_id, total_amount, delivery_address)
VALUES ... RETURNING id`. -/
def insertOrder (db : DB) (uid rid : Nat) (total : Rat) (addr : String) :
    DB × Nat :=
  ({ db with
      orders := db.orders ++ [newOrderRow db uid rid total addr],
      next_order_id := db.next_order_id + 1 }, db.next_order_id)

/-- Second pass of the handler: for each item a fresh
`SELECT price FROM menu_items WHERE id = $1` against `menu2` (the rows this
pass observes), then the `INSERT INTO order_items`.  The source never checks
`rows.length` here, so a vanished id makes `rows[0].price` a read of
`undefined` and the statement throws; `failAt k` models the k-th insert of
the transaction failing at the store (the order insert is number 0). -/
def insertOrderItems (menu2 : List MenuItemRow) (oid : Nat)
    (failAt : Nat → Bool) :
    List OrderItemInput → DB → Nat → Except String DB
  | [], db, _ => .ok db
  | it :: rest, db, k =>
    match selectPrice menu2 it.menu_item_id with
    | none => .error "TypeError: cannot read price of undefined"
    | some p =>
      if failAt k then .error "insert failed"
      else
        insertOrderItems menu2 oid failAt rest
          { db with
              order_items := db.order_items ++
                [{ id := db.next_order_item_id, order_id := oid,
                   menu_item_id := it.menu_item_id, quantity := it.quantity,
                   price := p,
                   special_instructions := it.special_instructions }],
              next_order_item_id := db.next_order_item_id + 1 }
          (k + 1)

/-- The body of the `try` block between `BEGIN` and `COMMIT`: compute the
total, insert the order row, insert the item rows.  Yields the state as of
`COMMIT`, or the thrown error. -/
def runTx (db : DB) (menu2 : List MenuItemRow) (uid rid : Nat)
    (items : List OrderItemInput) (addr : String) (failAt : Nat → Bool) :
    Except String (DB × Nat × Rat) :=
  match computeTotal db.menu_items items 0 with
  | .error e => .error e
  | .ok total =>
    if failAt 0 then .error "insert failed"
    else
      match insertOrderItems menu2 db.next_order_id failAt items
          (insertOrder db uid rid total addr).1 1 with
      | .error e => .error e
      | .ok db2 => .ok (db2, db.next_order_id, total)

/-- Connection/transaction events of one handler execution. -/
inductive Ev where
  | acquire
  | beginTx
  | commitTx
  | rollbackTx
  | release
  deriving Repr, DecidableEq

/-- The JSON response: HTTP status plus the fields the handler sends. -/
structure PlaceOrderResponse where
  status : Nat
  order_id : Option Nat
  total_amount : Option Rat
  error : Option String
  deriving Repr, DecidableEq

/-- The whole `app.post('/api/orders')` handler:
`pool.connect()`; `try { BEGIN; ...; COMMIT; 201 } catch { ROLLBACK; 500 }
finally { release() }`.  Returns the response, the database state after the
handler, and the connection/transaction events in order. -/
def placeOrderGen (db : DB) (menu2 : List MenuItemRow) (uid rid : Nat)
    (items : List OrderItemInput) (addr : String) (failAt : Nat → Bool) :
    PlaceOrderResponse × DB × List Ev :=
  match runTx db menu2 uid rid items addr failAt with
  | .ok (db2, oid, total) =>
    ({ status := 201, order_id := some oid, total_amount := some total,
       error := none }, db2,
     [Ev.acquire, Ev.beginTx, Ev.commitTx, Ev.release])
  | .error e =>
    ({ status := 500, order_id := none, total_amount := none,
       error := some e }, db,
     [Ev.acquire, Ev.beginTx, Ev.rollbackTx, Ev.release])

/-- The no-failure oracle: every store write succeeds. -/
def noFail : Nat → Bool := fun _ => false

/-- `placeOrder` as executed without concurrent interference and without
store failures: both passes see the same menu rows. -/
def placeOrder (db : DB) (uid rid : Nat) (items : List OrderItemInput)
    (addr : String) : PlaceOrderResponse × DB × List Ev :=
  placeOrderGen db db.menu_items uid rid items addr noFail

/-- `app.get('/api/orders/:id')`: the order row joined with its item rows,
`404` (`none`) when the order does not exist. -/
def getOrder (db : DB) (oid : Nat) : Option (OrderRow × List OrderItemRow) :=
  (db.orders.find? (fun o => o.id == oid)).map
    (fun o => (o, db.order_items.filter (fun oi => oi.order_id == oid)))

/-- Modelled from the spec: the repository has no menu-update route, but the
spec's snapshot scenario changes a menu price between two orders
("menu price changes from 15.99 to 17.99 after an order is placed").  This
is that external price change: a plain update of the matching menu rows. -/
def updateMenuPrice (db : DB) (mid : Nat) (newPrice : Rat) : DB :=
  { db with
      menu_items := db.menu_items.map
        (fun m => if m.id == mid then { m with price := newPrice } else m) }

/-- Modelled from the spec: `totalAmount == Σ(price_i × quantity_i)` where
`price_i` is the menu price at call time — the spec-side total, to be
compared with the handler's accumulated total. -/
def specTotal (menu : List MenuItemRow) (items : List OrderItemInput) : Rat :=
  (items.map
    (fun it => ((selectPrice menu it.menu_item_id).getD 0) *
      (it.quantity : Rat))).sum

/-- Sum of `price × quantity` over a list of order-item rows. -/
def itemsSum (l : List OrderItemRow) : Rat :=
  (l.map (fun oi => oi.price * (oi.quantity : Rat))).sum

/-- The stored total of one order: sum of `price × quantity` over its
`order_items` rows. -/
def orderItemsTotal (db : DB) (oid : Nat) : Rat :=
  itemsSum (db.order_items.filter (fun oi => oi.order_id == oid))

/-- Setting every menu row's `is_available` flag (to an arbitrary
per-id value): used to state that the handler never consults the flag. -/
def setAvailability (db : DB) (f : Nat → Bool) : DB :=
  { db with
      menu_items := db.menu_items.map
        (fun m => { m with is_available := f m.id }) }

/-- The spec's scenario fixture: one menu item `{id: 1, price: 15.99}` on a
fresh database. -/
def dbA : DB :=
  { menu_items := [{ id := 1, restaurant_id := 1, price := 15.99,
                     is_available := true }],
    orders := [], order_items := [], next_order_id := 1,
    next_order_item_id := 1 }

/-- The scenario's request items: `[{menuItemId: 1, quantity: 2}]`. -/
def itemsA : List OrderItemInput :=
  [{ menu_item_id := 1, quantity := 2, special_instructions := none }]

/-- The menu rows a second pass would observe after a concurrent committed
change of item 1's price to 17.99. -/
def menuB : List MenuItemRow :=
  [{ id := 1, restaurant_id := 1, price := 17.99, is_available := true }]

/-- Request items referencing the unknown menu id 999. -/
def itemsMissing : List OrderItemInput :=
  [{ menu_item_id := 999, quantity := 1, special_instructions := none }]

/-- A failure oracle making the first order-item insert (insert number 1 of
the transaction) fail at the store. -/
def failSecond : Nat → Bool := fun k => k == 1

/-- One atomic step of the system: an order-placement transaction (the
transactions serialise, so a step sees no mid-transaction interference and
no store failure), or an external menu price change. -/
inductive Step : DB → DB → Prop where
  | place (db : DB) (uid rid : Nat) (items : List OrderItemInput)
      (addr : String) : Step db (placeOrder db uid rid items addr).2.1
  | menuUpdate (db : DB) (mid : Nat) (p : Rat) :
      Step db (updateMenuPrice db mid p)

/-- Database states reachable from a freshly initialised database (any menu
rows, no orders, no order items) by the steps above. -/
inductive Reachable : DB → Prop where
  | init (menu : List MenuItemRow) (i j : Nat) :
      Reachable { menu_items := menu, orders := [], order_items := [],
                  next_order_id := i, next_order_item_id := j }
  | step (db db' : DB) : Reachable db → Step db db' → Reachable db'

/-- The internal well-formedness invariant carried through the induction:
order ids are below the `SERIAL` counter, item rows point at orders below
the counter, and every order's stored total matches its item rows. -/
def WF (db : DB) : Prop :=
  (∀ o ∈ db.orders, o.id < db.next_order_id) ∧
  (∀ oi ∈ db.order_items, oi.order_id < db.next_order_id) ∧
  (∀ o ∈ db.orders, o.total_amount = orderItemsTotal db o.id)

/-! ### Helper lemmas about the two passes -/

theorem computeTotal_all_found (menu : List MenuItemRow) :
    ∀ (items : List OrderItemInput) (acc : Rat),
      (∀ it ∈ items, (selectPrice menu it.menu_item_id).isSome) →
      computeTotal menu items acc = .ok (acc + specTotal menu items)
  | [], acc, _ => by simp [computeTotal, specTotal]
  | it :: rest, acc, h => by
    have hit : (selectPrice menu it.menu_item_id).isSome :=
      h it (List.mem_cons_self it rest)
    obtain ⟨p, hp⟩ := Option.isSome_iff_exists.mp hit
    have hrest : ∀ x ∈ rest, (selectPrice menu x.menu_item_id).isSome :=
      fun x hx => h x (List.mem_cons_of_mem it hx)
    have hstep : computeTotal menu (it :: rest) acc =
        computeTotal menu rest (acc + p * (it.quantity : Rat)) := by
      rw [computeTotal, hp]
    rw [hstep, computeTotal_all_found menu rest (acc + p * (it.quantity : Rat)) hrest]
    simp [specTotal, hp]
    ring

theorem computeTotal_missing (menu : List MenuItemRow) :
    ∀ (items : List OrderItemInput) (acc : Rat) (it : OrderItemInput),
      it ∈ items → selectPrice menu it.menu_item_id = none →
      ∃ n, computeTotal menu items acc =
          .error ("Menu item " ++ toString n ++ " not found") ∧
        selectPrice menu n = none
  | [], _, it, hmem, _ => absurd hmem (List.not_mem_nil it)
  | a :: rest, acc, it, hmem, hnone => by
    cases hsel : selectPrice menu a.menu_item_id with
    | none => exact ⟨a.menu_item_id, by rw [computeTotal, hsel], hsel⟩
    | some p =>
      rcases List.mem_cons.mp hmem with rfl | hrest
      · rw [hsel] at hnone; exact absurd hnone (by simp)
      · obtain ⟨n, he, hn⟩ :=
          computeTotal_missing menu rest (acc + p * (a.quantity : Rat)) it
            hrest hnone
        exact ⟨n, by rw [computeTotal, hsel]; exact he, hn⟩

theorem insertOrderItems_ok_spec (menu2 : List MenuItemRow) (oid : Nat)
    (failAt : Nat → Bool) :
    ∀ (items : List OrderItemInput) (db db' : DB) (k : Nat),
      insertOrderItems menu2 oid failAt items db k = .ok db' →
      db'.menu_items = db.menu_items ∧
      db'.orders = db.orders ∧
      db'.next_order_id = db.next_order_id ∧
      db'.order_items.length = db.order_items.length + items.length ∧
      (∀ row ∈ db'.order_items, row ∈ db.order_items ∨
        (row.order_id = oid ∧
         some row.price = selectPrice menu2 row.menu_item_id ∧
         ∃ it ∈ items, row.menu_item_id = it.menu_item_id ∧
           row.quantity = it.quantity)) ∧
      (∀ q : Nat, q ≠ oid →
        db'.order_items.filter (fun oi => oi.order_id == q) =
        db.order_items.filter (fun oi => oi.order_id == q)) ∧
      (orderItemsTotal db' oid = orderItemsTotal db oid + specTotal menu2 items) ∧
      (∀ row ∈ db.order_items, row ∈ db'.order_items)
  | [], db, db', k, h => by
    rw [insertOrderItems] at h
    cases h
    simp [specTotal]
  | it :: rest, db, db', k, h => by
    rw [insertOrderItems] at h
    cases hsel : selectPrice menu2 it.menu_item_id with
    | none => rw [hsel] at h; exact absurd h (by simp)
    | some p =>
      set row : OrderItemRow :=
        { id := db.next_order_item_id, order_id := oid,
          menu_item_id := it.menu_item_id, quantity := it.quantity,
          price := p, special_instructions := it.special_instructions }
        with hrow
      set dbMid : DB :=
        { db with order_items := db.order_items ++ [row],
                  next_order_item_id := db.next_order_item_id + 1 }
        with hdbMid
      rw [hsel] at h
      have h' : (if failAt k then (Except.error "insert failed" : Except String DB)
          else insertOrderItems menu2 oid failAt rest dbMid (k + 1)) =
          Except.ok db' := h
      by_cases hf : failAt k = true
      · rw [if_pos hf] at h'; exact absurd h' (by simp)
      · rw [if_neg hf] at h'
        obtain ⟨h1, h2, h3, h4, h5, h6, h7, h8⟩ :=
          insertOrderItems_ok_spec menu2 oid failAt rest dbMid db' (k + 1) h'
        refine ⟨by simpa using h1, by simpa using h2, by simpa using h3,
          ?_, ?_, ?_, ?_, ?_⟩
        · rw [h4]; simp [hdbMid]; omega
        · intro r hr
          rcases h5 r hr with hmem | hnew
          · rcases (by simpa [hdbMid] using hmem :
                r ∈ db.order_items ∨ r = row) with hold | rfl
            · exact Or.inl hold
            · exact Or.inr ⟨rfl, by rw [hsel], it,
                List.mem_cons_self it rest, rfl, rfl⟩
          · obtain ⟨ha, hb, x, hx, hc⟩ := hnew
            exact Or.inr ⟨ha, hb, x, List.mem_cons_of_mem it hx, hc⟩
        · intro q hq
          rw [h6 q hq]
          simp [hdbMid, hrow]
          intro hcontra
          exact absurd hcontra.symm hq
        · rw [h7]
          simp [orderItemsTotal, hdbMid, hrow, itemsSum, specTotal, hsel]
          ring
        · intro r hr
          exact h8 r (by simp [hdbMid]; exact Or.inl hr)

theorem insertOrderItems_noFail_ok (menu2 : List MenuItemRow) (oid : Nat) :
    ∀ (items : List OrderItemInput) (db : DB) (k : Nat),
      (∀ it ∈ items, (selectPrice menu2 it.menu_item_id).isSome) →
      ∃ db', insertOrderItems menu2 oid noFail items db k = .ok db'
  | [], db, k, _ => ⟨db, by rw [insertOrderItems]⟩
  | it :: rest, db, k, h => by
    obtain ⟨p, hp⟩ := Option.isSome_iff_exists.mp
      (h it (List.mem_cons_self it rest))
    obtain ⟨db', hdb'⟩ := insertOrderItems_noFail_ok menu2 oid rest
      { db with
          order_items := db.order_items ++
            [{ id := db.next_order_item_id, order_id := oid,
               menu_item_id := it.menu_item_id, quantity := it.quantity,
               price := p, special_instructions := it.special_instructions }],
          next_order_item_id := db.next_order_item_id + 1 }
      (k + 1) (fun x hx => h x (List.mem_cons_of_mem it hx))
    exact ⟨db', by rw [insertOrderItems, hp]; exact hdb'⟩

/-- Success-path characterisation of the handler: when every item id resolves
in the first pass and in the second pass's view, the order is created. -/
theorem placeOrderGen_success (db : DB) (menu2 : List MenuItemRow)
    (uid rid : Nat) (items : List OrderItemInput) (addr : String)
    (h1 : ∀ it ∈ items, (selectPrice db.menu_items it.menu_item_id).isSome)
    (h2 : ∀ it ∈ items, (selectPrice menu2 it.menu_item_id).isSome) :
    ∃ db',
      placeOrderGen db menu2 uid rid items addr noFail =
        ({ status := 201, order_id := some db.next_order_id,
           total_amount := some (specTotal db.menu_items items),
           error := none }, db',
         [Ev.acquire, Ev.beginTx, Ev.commitTx, Ev.release]) ∧
      db'.menu_items = db.menu_items ∧
      db'.orders = db.orders ++
        [newOrderRow db uid rid (specTotal db.menu_items items) addr] ∧
      db'.order_items.length = db.order_items.length + items.length ∧
      (∀ row ∈ db'.order_items, row ∈ db.order_items ∨
        (row.order_id = db.next_order_id ∧
         some row.price = selectPrice menu2 row.menu_item_id ∧
         ∃ it ∈ items, row.menu_item_id = it.menu_item_id ∧
           row.quantity = it.quantity)) ∧
      (∀ q : Nat, q ≠ db.next_order_id →
        db'.order_items.filter (fun oi => oi.order_id == q) =
        db.order_items.filter (fun oi => oi.order_id == q)) ∧
      orderItemsTotal db' db.next_order_id =
        orderItemsTotal db db.next_order_id + specTotal menu2 items ∧
      (∀ row ∈ db.order_items, row ∈ db'.order_items) := by
  have htot := computeTotal_all_found db.menu_items items 0 h1
  rw [zero_add] at htot
  obtain ⟨db2, hins⟩ := insertOrderItems_noFail_ok menu2 db.next_order_id
    items (insertOrder db uid rid (specTotal db.menu_items items) addr).1 1 h2
  obtain ⟨g1, g2, g3, g4, g5, g6, g7, g8⟩ :=
    insertOrderItems_ok_spec menu2 db.next_order_id noFail items
      (insertOrder db uid rid (specTotal db.menu_items items) addr).1 db2 1 hins
  have hrun : runTx db menu2 uid rid items addr noFail =
      .ok (db2, db.next_order_id, specTotal db.menu_items items) := by
    rw [runTx, htot]
    simp only [noFail, if_neg (by simp : ¬ (false : Bool) = true)]
    rw [hins]
  refine ⟨db2, ?_, ?_, ?_, ?_, g5, g6, ?_, g8⟩
  · rw [placeOrderGen, hrun]
  · simpa [insertOrder] using g1
  · rw [g2]; simp [insertOrder]
  · rw [g4]; simp [insertOrder]
  · rw [g7]; simp [insertOrder, orderItemsTotal]

/-- Failure-path characterisation: a thrown error leads to rollback, a 500
response carrying the message, and an unchanged database state. -/
theorem placeOrderGen_failure (db : DB) (menu2 : List MenuItemRow)
    (uid rid : Nat) (items : List OrderItemInput) (addr : String)
    (failAt : Nat → Bool) (e : String)
    (h : runTx db menu2 uid rid items addr failAt = .error e) :
    placeOrderGen db menu2 uid rid items addr failAt =
      ({ status := 500, order_id := none, total_amount := none,
         error := some e }, db,
       [Ev.acquire, Ev.beginTx, Ev.rollbackTx, Ev.release]) := by
  rw [placeOrderGen, h]

/-- A missing menu item makes `runTx` throw. -/
theorem runTx_missing_item (db : DB) (menu2 : List MenuItemRow)
    (uid rid : Nat) (items : List OrderItemInput) (addr : String)
    (failAt : Nat → Bool) (it : OrderItemInput) (hmem : it ∈ items)
    (hnone : selectPrice db.menu_items it.menu_item_id = none) :
    ∃ n, runTx db menu2 uid rid items addr failAt =
        .error ("Menu item " ++ toString n ++ " not found") ∧
      selectPrice db.menu_items n = none := by
  obtain ⟨n, he, hn⟩ := computeTotal_missing db.menu_items items 0 it
    hmem hnone
  exact ⟨n, by rw [runTx, he], hn⟩

/-- Whatever the failure oracle and the second pass's menu view, an error
result never changes the database and a success result adds exactly one
order row and one item row per input item. -/
theorem placeOrderGen_cases (db : DB) (menu2 : List MenuItemRow)
    (uid rid : Nat) (items : List OrderItemInput) (addr : String)
    (failAt : Nat → Bool) :
    (∀ r db' ev, placeOrderGen db menu2 uid rid items addr failAt =
      (r, db', ev) →
      (r.status = 500 → db' = db) ∧
      (r.status = 201 →
        db'.orders.length = db.orders.length + 1 ∧
        db'.order_items.length = db.order_items.length + items.length)) := by
  intro r db' ev hrun
  cases htx : runTx db menu2 uid rid items addr failAt with
  | error e =>
    rw [placeOrderGen, htx] at hrun
    have hrun' : (({ status := 500,
                     order_id := none,
                     total_amount := none,
                     error := some e } : PlaceOrderResponse), db,
        [Ev.acquire, Ev.beginTx, Ev.rollbackTx, Ev.release]) =
        (r, db', ev) := hrun
    injection hrun' with ha hb
    injection hb with hb1 hb2
    subst ha hb1
    exact ⟨fun _ => rfl, fun h201 => absurd h201 (by simp)⟩
  | ok v =>
    obtain ⟨dbc, oid, total⟩ := v
    rw [placeOrderGen, htx] at hrun
    have hrun' : (({ status := 201,
                     order_id := some oid,
                     total_amount := some total,
                     error := none } : PlaceOrderResponse), dbc,
        [Ev.acquire, Ev.beginTx, Ev.commitTx, Ev.release]) =
        (r, db', ev) := hrun
    injection hrun' with ha hb
    injection hb with hb1 hb2
    subst ha hb1
    refine ⟨fun h500 => absurd h500 (by simp), fun _ => ?_⟩
    rw [runTx] at htx
    cases htot : computeTotal db.menu_items items 0 with
    | error e => rw [htot] at htx; exact absurd htx (by simp)
    | ok t =>
      rw [htot] at htx
      have htx' : (if failAt 0 = true then
          (Except.error "insert failed" : Except String (DB × Nat × Rat))
          else match insertOrderItems menu2 db.next_order_id failAt items
              (insertOrder db uid rid t addr).1 1 with
            | .error e => .error e
            | .ok db2 => .ok (db2, db.next_order_id, t)) =
          Except.ok (dbc, oid, total) := htx
      by_cases hf : failAt 0 = true
      · rw [if_pos hf] at htx'; exact absurd htx' (by simp)
      · rw [if_neg hf] at htx'
        cases hins : insertOrderItems menu2 db.next_order_id failAt items
            (insertOrder db uid rid t addr).1 1 with
        | error e => rw [hins] at htx'; exact absurd htx' (by simp)
        | ok dbi =>
          rw [hins] at htx'
          have htx'' : (Except.ok (dbi, db.next_order_id, t) :
              Except String (DB × Nat × Rat)) =
              Except.ok (dbc, oid, total) := htx'
          obtain ⟨g1, g2, g3, g4, g5, g6, g7, g8⟩ :=
            insertOrderItems_ok_spec menu2 db.next_order_id
              failAt items (insertOrder db uid rid t addr).1 dbi 1 hins
          have hdbc : dbc = dbi := by
            have := Except.ok.inj htx''
            exact (congrArg (fun x : DB × Nat × Rat => x.1) this).symm
          subst hdbc
          constructor
          · rw [g2]; simp [insertOrder]
          · rw [g4]; simp [insertOrder]

theorem computeTotal_ok_inv (menu : List MenuItemRow) :
    ∀ (items : List OrderItemInput) (acc t : Rat),
      computeTotal menu items acc = .ok t →
      (∀ it ∈ items, (selectPrice menu it.menu_item_id).isSome) ∧
      t = acc + specTotal menu items
  | [], acc, t, h => by
    rw [computeTotal] at h
    cases h
    simp [specTotal]
  | it :: rest, acc, t, h => by
    rw [computeTotal] at h
    cases hsel : selectPrice menu it.menu_item_id with
    | none =>
      rw [hsel] at h
      exact absurd h (by simp)
    | some p =>
      rw [hsel] at h
      have h' : computeTotal menu rest (acc + p * (it.quantity : Rat)) =
          .ok t := h
      obtain ⟨hall, ht⟩ := computeTotal_ok_inv menu rest
        (acc + p * (it.quantity : Rat)) t h'
      refine ⟨?_, ?_⟩
      · intro x hx
        rcases List.mem_cons.mp hx with rfl | hxr
        · rw [hsel]; rfl
        · exact hall x hxr
      · rw [ht]; simp [specTotal, hsel]; ring

theorem filter_order_id_big (n : Nat) :
    ∀ l : List OrderItemRow, (∀ oi ∈ l, oi.order_id < n) →
      l.filter (fun oi => oi.order_id == n) = []
  | [], _ => rfl
  | oi :: rest, h => by
    have hlt : oi.order_id < n := h oi (List.mem_cons_self oi rest)
    rw [List.filter_cons_of_neg (by simp; omega)]
    exact filter_order_id_big n rest (fun x hx => h x (List.mem_cons_of_mem oi hx))

/-- Full characterisation of a committed transaction, whatever the failure
oracle and the second pass's menu view. -/
theorem runTx_ok_spec (db : DB) (menu2 : List MenuItemRow) (uid rid : Nat)
    (items : List OrderItemInput) (addr : String) (failAt : Nat → Bool)
    (db2 : DB) (oid : Nat) (total : Rat)
    (h : runTx db menu2 uid rid items addr failAt = .ok (db2, oid, total)) :
    oid = db.next_order_id ∧
    total = specTotal db.menu_items items ∧
    (∀ it ∈ items, (selectPrice db.menu_items it.menu_item_id).isSome) ∧
    db2.menu_items = db.menu_items ∧
    db2.next_order_id = db.next_order_id + 1 ∧
    db2.orders = db.orders ++ [newOrderRow db uid rid total addr] ∧
    db2.order_items.length = db.order_items.length + items.length ∧
    (∀ row ∈ db2.order_items, row ∈ db.order_items ∨
      (row.order_id = db.next_order_id ∧
       some row.price = selectPrice menu2 row.menu_item_id ∧
       ∃ it ∈ items, row.menu_item_id = it.menu_item_id ∧
         row.quantity = it.quantity)) ∧
    (∀ q : Nat, q ≠ db.next_order_id →
      db2.order_items.filter (fun oi => oi.order_id == q) =
      db.order_items.filter (fun oi => oi.order_id == q)) ∧
    orderItemsTotal db2 db.next_order_id =
      orderItemsTotal db db.next_order_id + specTotal menu2 items ∧
    (∀ row ∈ db.order_items, row ∈ db2.order_items) := by
  rw [runTx] at h
  cases htot : computeTotal db.menu_items items 0 with
  | error e => rw [htot] at h; exact absurd h (by simp)
  | ok t =>
    rw [htot] at h
    obtain ⟨hall, ht⟩ := computeTotal_ok_inv db.menu_items items 0 t htot
    rw [zero_add] at ht
    have h' : (if failAt 0 = true then
        (Except.error "insert failed" : Except String (DB × Nat × Rat))
        else match insertOrderItems menu2 db.next_order_id failAt items
            (insertOrder db uid rid t addr).1 1 with
          | .error e => .error e
          | .ok dbi => .ok (dbi, db.next_order_id, t)) =
        Except.ok (db2, oid, total) := h
    by_cases hf : failAt 0 = true
    · rw [if_pos hf] at h'; exact absurd h' (by simp)
    · rw [if_neg hf] at h'
      cases hins : insertOrderItems menu2 db.next_order_id failAt items
          (insertOrder db uid rid t addr).1 1 with
      | error e => rw [hins] at h'; exact absurd h' (by simp)
      | ok dbi =>
        rw [hins] at h'
        have h'' : (Except.ok (dbi, db.next_order_id, t) :
            Except String (DB × Nat × Rat)) = Except.ok (db2, oid, total) := h'
        have hinj := Except.ok.inj h''
        have hdb2 : dbi = db2 := congrArg (fun x : DB × Nat × Rat => x.1) hinj
        have hoid : db.next_order_id = oid :=
          congrArg (fun x : DB × Nat × Rat => x.2.1) hinj
        have htt : t = total :=
          congrArg (fun x : DB × Nat × Rat => x.2.2) hinj
        subst hdb2 hoid htt
        obtain ⟨g1, g2, g3, g4, g5, g6, g7, g8⟩ :=
          insertOrderItems_ok_spec menu2 db.next_order_id failAt items
            (insertOrder db uid rid t addr).1 dbi 1 hins
        refine ⟨rfl, ht, hall, ?_, ?_, ?_, ?_, g5, ?_, ?_, g8⟩
        · simpa [insertOrder] using g1
        · simpa [insertOrder] using g3
        · rw [g2]; simp [insertOrder]
        · rw [g4]; simp [insertOrder]
        · intro q hq; rw [g6 q hq]; rfl
        · rw [g7]; simp [insertOrder, orderItemsTotal]

theorem WF_step (db db' : DB) (hwf : WF db) (hstep : Step db db') : WF db' := by
  obtain ⟨w1, w2, w3⟩ := hwf
  cases hstep with
  | menuUpdate mid p =>
    exact ⟨w1, w2, fun o ho => w3 o ho⟩
  | place uid rid items addr =>
    rw [placeOrder]
    cases htx : runTx db db.menu_items uid rid items addr noFail with
    | error e =>
      rw [placeOrderGen, htx]
      exact ⟨w1, w2, w3⟩
    | ok v =>
      obtain ⟨db2, oid, total⟩ := v
      rw [placeOrderGen, htx]
      obtain ⟨hoid, htotal, hall, k1, k2, k3, k4, k5, k6, k7, k8⟩ :=
        runTx_ok_spec db db.menu_items uid rid items addr noFail db2 oid
          total htx
      show WF db2
      refine ⟨?_, ?_, ?_⟩
      · intro o ho
        rw [k3] at ho
        rcases List.mem_append.mp ho with hold | hnew
        · have := w1 o hold; omega
        · rcases List.mem_singleton.mp hnew with rfl
          rw [k2]
          simp only [newOrderRow]
          omega
      · intro oi hoi
        rcases k5 oi hoi with hold | ⟨heq, _⟩
        · have := w2 oi hold; omega
        · rw [k2, heq]; omega
      · intro o ho
        rw [k3] at ho
        rcases List.mem_append.mp ho with hold | hnew
        · rw [w3 o hold]
          have hne : o.id ≠ db.next_order_id := by
            have := w1 o hold; omega
          rw [orderItemsTotal, orderItemsTotal, k6 o.id hne]
        · rcases List.mem_singleton.mp hnew with rfl
          rw [newOrderRow]
          have hzero : orderItemsTotal db db.next_order_id = 0 := by
            rw [orderItemsTotal, filter_order_id_big db.next_order_id
              db.order_items w2]
            rfl
          rw [k7, hzero, zero_add, htotal]

theorem Reachable_WF (db : DB) (h : Reachable db) : WF db := by
  induction h with
  | init menu i j =>
    refine ⟨by simp, by simp, by simp⟩
  | step db db' _ hstep ih => exact WF_step db db' ih hstep

theorem find?_map_of_id_preserving (g : MenuItemRow → MenuItemRow)
    (hg : ∀ m, (g m).id = m.id) (x : Nat) :
    ∀ menu : List MenuItemRow,
      (menu.map g).find? (fun m => m.id == x) =
      (menu.find? (fun m => m.id == x)).map g
  | [] => rfl
  | m :: rest => by
    by_cases hx : (m.id == x) = true
    · rw [List.map_cons,
        List.find?_cons_of_pos (List.map g rest)
          (show ((g m).id == x) = true by simpa [hg] using hx),
        List.find?_cons_of_pos rest hx]
      rfl
    · rw [List.map_cons,
        List.find?_cons_of_neg (List.map g rest)
          (show ¬ ((g m).id == x) = true by simpa [hg] using hx),
        List.find?_cons_of_neg rest hx]
      exact find?_map_of_id_preserving g hg x rest

theorem selectPrice_updateMenuPrice (db : DB) (mid : Nat) (p : Rat)
    (x : Nat) :
    selectPrice (updateMenuPrice db mid p).menu_items x =
    (selectPrice db.menu_items x).map (fun q => if x == mid then p else q) := by
  have hmenu : (updateMenuPrice db mid p).menu_items =
      db.menu_items.map
        (fun m => if m.id == mid then { m with price := p } else m) := rfl
  have hg : ∀ m : MenuItemRow,
      ((if m.id == mid then { m with price := p } else m) : MenuItemRow).id =
        m.id := by
    intro m
    by_cases h : (m.id == mid) = true <;> simp [h]
  rw [selectPrice, hmenu, find?_map_of_id_preserving _ hg x]
  cases hf : db.menu_items.find? (fun m => m.id == x) with
  | none => simp [selectPrice, hf]
  | some m =>
    have hpx := List.find?_some hf
    have hmx : m.id = x := by simpa using hpx
    simp only [selectPrice, hf, Option.map_some]
    by_cases hmid : (m.id == mid) = true
    · have hxm : (x == mid) = true := by rw [← hmx]; exact hmid
      have hm : m.id = mid := by simpa using hmid
      simp [hmid, hxm, hm]
    · have hxm : (x == mid) = false := by
        rw [← hmx]
        simpa using hmid
      have hm : ¬ m.id = mid := by simpa using hmid
      simp [hmid, hxm, hm]

theorem selectPrice_setAvailability (db : DB) (f : Nat → Bool) (x : Nat) :
    selectPrice (setAvailability db f).menu_items x =
    selectPrice db.menu_items x := by
  have hmenu : (setAvailability db f).menu_items =
      db.menu_items.map (fun m => { m with is_available := f m.id }) := rfl
  rw [selectPrice, hmenu,
    find?_map_of_id_preserving (fun m => { m with is_available := f m.id })
      (fun m => rfl) x]
  cases hf : db.menu_items.find? (fun m => m.id == x) with
  | none => simp [selectPrice, hf]
  | some m => simp [selectPrice, hf]

theorem computeTotal_congr (menu menu' : List MenuItemRow)
    (hsel : ∀ x, selectPrice menu' x = selectPrice menu x) :
    ∀ (items : List OrderItemInput) (acc : Rat),
      computeTotal menu' items acc = computeTotal menu items acc
  | [], _ => rfl
  | it :: rest, acc => by
    rw [computeTotal, computeTotal, hsel]
    cases hs : selectPrice menu it.menu_item_id with
    | none => rfl
    | some p =>
      exact computeTotal_congr menu menu' hsel rest (acc + p * (it.quantity : Rat))

theorem specTotal_congr (menu menu' : List MenuItemRow)
    (hsel : ∀ x, selectPrice menu' x = selectPrice menu x)
    (items : List OrderItemInput) :
    specTotal menu' items = specTotal menu items := by
  simp only [specTotal, hsel]

theorem insertOrderItems_congr (menu2 menu2' : List MenuItemRow) (oid : Nat)
    (failAt : Nat → Bool)
    (hsel : ∀ x, selectPrice menu2' x = selectPrice menu2 x) :
    ∀ (items : List OrderItemInput) (db : DB) (k : Nat),
      insertOrderItems menu2' oid failAt items db k =
      insertOrderItems menu2 oid failAt items db k
  | [], _, _ => rfl
  | it :: rest, db, k => by
    rw [insertOrderItems, insertOrderItems, hsel]
    cases hs : selectPrice menu2 it.menu_item_id with
    | none => rfl
    | some p =>
      show (if failAt k then (Except.error "insert failed" : Except String DB)
          else _) = (if failAt k then Except.error "insert failed" else _)
      by_cases hf : failAt k = true
      · rw [if_pos hf, if_pos hf]
      · rw [if_neg hf, if_neg hf]
        exact insertOrderItems_congr menu2 menu2' oid failAt hsel rest _ (k + 1)

theorem insertOrderItems_menuField (menu2 : List MenuItemRow) (oid : Nat)
    (failAt : Nat → Bool) (M : List MenuItemRow) :
    ∀ (items : List OrderItemInput) (db : DB) (k : Nat),
      insertOrderItems menu2 oid failAt items
        { db with menu_items := M } k =
      (insertOrderItems menu2 oid failAt items db k).map
        (fun d => { d with menu_items := M })
  | [], _, _ => rfl
  | it :: rest, db, k => by
    rw [insertOrderItems, insertOrderItems]
    cases hs : selectPrice menu2 it.menu_item_id with
    | none => rfl
    | some p =>
      show (if failAt k then (Except.error "insert failed" : Except String DB)
          else _) = ((if failAt k then Except.error "insert failed" else _) :
            Except String DB).map (fun d => { d with menu_items := M })
      by_cases hf : failAt k = true
      · rw [if_pos hf, if_pos hf]; rfl
      · rw [if_neg hf, if_neg hf]
        exact insertOrderItems_menuField menu2 oid failAt M rest
          { db with
              order_items := db.order_items ++
                [{ id := db.next_order_item_id, order_id := oid,
                   menu_item_id := it.menu_item_id, quantity := it.quantity,
                   price := p,
                   special_instructions := it.special_instructions }],
              next_order_item_id := db.next_order_item_id + 1 }
          (k + 1)

theorem runTx_setAvailability (db : DB) (f : Nat → Bool) (uid rid : Nat)
    (items : List OrderItemInput) (addr : String) :
    runTx (setAvailability db f) (setAvailability db f).menu_items uid rid
      items addr noFail =
    (runTx db db.menu_items uid rid items addr noFail).map
      (fun v => ({ v.1 with
          menu_items := (setAvailability db f).menu_items }, v.2)) := by
  have hsel := selectPrice_setAvailability db f
  rw [runTx, runTx,
    computeTotal_congr db.menu_items (setAvailability db f).menu_items hsel
      items 0]
  cases ht : computeTotal db.menu_items items 0 with
  | error e => rfl
  | ok t =>
    show (if noFail 0 then (Except.error "insert failed" :
        Except String (DB × Nat × Rat)) else _) = Except.map _
        (if noFail 0 then Except.error "insert failed" else _)
    rw [if_neg (by simp [noFail]), if_neg (by simp [noFail])]
    rw [insertOrderItems_congr db.menu_items
        (setAvailability db f).menu_items (setAvailability db f).next_order_id
        noFail hsel items _ 1]
    have hbase : (insertOrder (setAvailability db f) uid rid t addr).1 =
        { (insertOrder db uid rid t addr).1 with
            menu_items := (setAvailability db f).menu_items } := rfl
    rw [hbase, insertOrderItems_menuField]
    have hno : (setAvailability db f).next_order_id = db.next_order_id := rfl
    rw [hno]
    cases hins : insertOrderItems db.menu_items db.next_order_id noFail
        items (insertOrder db uid rid t addr).1 1 with
    | error e => rfl
    | ok d => rfl

/-! ### Claim theorems -/

/-- C1: for every `placeOrder` call whose items list is non-empty and whose
menu ids all resolve, the call succeeds (HTTP 201) and the returned
`totalAmount` equals the sum over all items of menu price at call time times
quantity; one Order row and one OrderItem row per input item are persisted. -/
theorem placeOrder_totalAmount_correct (db : DB) (uid rid : Nat)
    (items : List OrderItemInput) (addr : String)
    (hne : items ≠ [])
    (h : ∀ it ∈ items, (selectPrice db.menu_items it.menu_item_id).isSome) :
    (placeOrder db uid rid items addr).1.status = 201 ∧
    (placeOrder db uid rid items addr).1.total_amount =
      some (specTotal db.menu_items items) ∧
    (placeOrder db uid rid items addr).2.1.orders.length =
      db.orders.length + 1 ∧
    (placeOrder db uid rid items addr).2.1.order_items.length =
      db.order_items.length + items.length := by
  obtain ⟨db', heq, m1, m2, m3, m4, m5, m6, m7⟩ :=
    placeOrderGen_success db db.menu_items uid rid items addr h h
  rw [placeOrder, heq]
  refine ⟨rfl, rfl, ?_, m3⟩
  rw [m2]
  simp

/-- Witness for C1: the spec scenario — menu item `{id:1, price:15.99}`,
`items=[{menuItemId:1, quantity:2}]` yields 201, totalAmount 31.98, exactly
one Order row and one OrderItem row. -/
theorem placeOrder_totalAmount_correct_witness :
    itemsA ≠ [] ∧
    (∀ it ∈ itemsA, (selectPrice dbA.menu_items it.menu_item_id).isSome) ∧
    (placeOrder dbA 1 1 itemsA "A").1.status = 201 ∧
    (placeOrder dbA 1 1 itemsA "A").1.total_amount = some (31.98 : Rat) ∧
    (placeOrder dbA 1 1 itemsA "A").2.1.orders.length = 1 ∧
    (placeOrder dbA 1 1 itemsA "A").2.1.order_items.length = 1 := by
  have h := placeOrder_totalAmount_correct dbA 1 1 itemsA "A"
    (by decide) (by decide)
  refine ⟨by decide, by decide, h.1, ?_, ?_, ?_⟩
  · rw [h.2.1]
    norm_num [specTotal, selectPrice, dbA, itemsA, List.find?]
  · rw [h.2.2.1]; rfl
  · rw [h.2.2.2]; rfl

/-- C2: a `placeOrder` run in which a referenced menu item is unknown fails
with HTTP 500, every failing run (unknown item or failing insert) leaves the
database unchanged, and every successful run persists exactly one Order row
and one OrderItem row per input item. -/
theorem placeOrder_rollback_atomicity (db : DB) (menu2 : List MenuItemRow)
    (uid rid : Nat) (items : List OrderItemInput) (addr : String)
    (failAt : Nat → Bool) :
    ((∃ it ∈ items, selectPrice db.menu_items it.menu_item_id = none) →
      (placeOrderGen db menu2 uid rid items addr failAt).1.status = 500) ∧
    ((placeOrderGen db menu2 uid rid items addr failAt).1.status = 500 →
      (placeOrderGen db menu2 uid rid items addr failAt).2.1 = db) ∧
    ((placeOrderGen db menu2 uid rid items addr failAt).1.status = 201 →
      (placeOrderGen db menu2 uid rid items addr failAt).2.1.orders.length =
        db.orders.length + 1 ∧
      (placeOrderGen db menu2 uid rid items addr failAt).2.1.order_items.length =
        db.order_items.length + items.length) := by
  obtain ⟨c1, c2⟩ := placeOrderGen_cases db menu2 uid rid items addr failAt
    (placeOrderGen db menu2 uid rid items addr failAt).1
    (placeOrderGen db menu2 uid rid items addr failAt).2.1
    (placeOrderGen db menu2 uid rid items addr failAt).2.2 rfl
  refine ⟨?_, c1, c2⟩
  rintro ⟨it, hmem, hnone⟩
  obtain ⟨n, he, hn⟩ := runTx_missing_item db menu2 uid rid items addr failAt
    it hmem hnone
  rw [placeOrderGen_failure db menu2 uid rid items addr failAt _ he]

/-- Witness for C2: with the unknown id 999 the run returns 500 and leaves
the database exactly as it was; and a run whose order-item insert fails at
the store also returns 500 and leaves the database unchanged. -/
theorem placeOrder_rollback_atomicity_witness :
    (∃ it ∈ itemsMissing, selectPrice dbA.menu_items it.menu_item_id = none) ∧
    (placeOrderGen dbA dbA.menu_items 1 1 itemsMissing "A" noFail).1.status
      = 500 ∧
    (placeOrderGen dbA dbA.menu_items 1 1 itemsMissing "A" noFail).2.1
      = dbA ∧
    (placeOrderGen dbA dbA.menu_items 1 1 itemsA "A" failSecond).1.status
      = 500 ∧
    (placeOrderGen dbA dbA.menu_items 1 1 itemsA "A" failSecond).2.1
      = dbA := by
  have hmiss : ∃ it ∈ itemsMissing,
      selectPrice dbA.menu_items it.menu_item_id = none := by decide
  have h1 := placeOrder_rollback_atomicity dbA dbA.menu_items 1 1
    itemsMissing "A" noFail
  have h2 := placeOrder_rollback_atomicity dbA dbA.menu_items 1 1
    itemsA "A" failSecond
  have hs1 := h1.1 hmiss
  have hs2 : (placeOrderGen dbA dbA.menu_items 1 1 itemsA "A"
      failSecond).1.status = 500 := by decide
  exact ⟨hmiss, hs1, h1.2.1 hs1, hs2, h2.2.1 hs2⟩

/-- C7: on every execution — success or failure — exactly one connection is
acquired, exactly once released, acquisition is the first event and release
the last; a failing run rolls back before releasing and a successful run
commits before releasing. -/
theorem connection_lifecycle (db : DB) (menu2 : List MenuItemRow)
    (uid rid : Nat) (items : List OrderItemInput) (addr : String)
    (failAt : Nat → Bool) :
    ((placeOrderGen db menu2 uid rid items addr failAt).2.2.count
      Ev.acquire = 1) ∧
    ((placeOrderGen db menu2 uid rid items addr failAt).2.2.count
      Ev.release = 1) ∧
    ((placeOrderGen db menu2 uid rid items addr failAt).2.2.head? =
      some Ev.acquire) ∧
    ((placeOrderGen db menu2 uid rid items addr failAt).2.2.getLast? =
      some Ev.release) ∧
    ((placeOrderGen db menu2 uid rid items addr failAt).1.status = 500 →
      (placeOrderGen db menu2 uid rid items addr failAt).2.2 =
        [Ev.acquire, Ev.beginTx, Ev.rollbackTx, Ev.release]) ∧
    ((placeOrderGen db menu2 uid rid items addr failAt).1.status = 201 →
      (placeOrderGen db menu2 uid rid items addr failAt).2.2 =
        [Ev.acquire, Ev.beginTx, Ev.commitTx, Ev.release]) := by
  cases htx : runTx db menu2 uid rid items addr failAt with
  | error e =>
    rw [placeOrderGen, htx]
    exact ⟨rfl, rfl, rfl, rfl, fun _ => rfl, fun h => absurd h (by simp)⟩
  | ok v =>
    obtain ⟨db2, oid, total⟩ := v
    rw [placeOrderGen, htx]
    exact ⟨rfl, rfl, rfl, rfl, fun h => absurd h (by simp), fun _ => rfl⟩

/-- Witness for C7: concrete runs — the success path commits then releases,
the unknown-item path rolls back then releases; both acquire and release
exactly once. -/
theorem connection_lifecycle_witness :
    ((placeOrderGen dbA dbA.menu_items 1 1 itemsA "A" noFail).2.2.count
      Ev.acquire = 1) ∧
    ((placeOrderGen dbA dbA.menu_items 1 1 itemsA "A" noFail).2.2.getLast? =
      some Ev.release) ∧
    (placeOrderGen dbA dbA.menu_items 1 1 itemsMissing "A" noFail).2.2 =
      [Ev.acquire, Ev.beginTx, Ev.rollbackTx, Ev.release] := by
  refine ⟨(connection_lifecycle dbA dbA.menu_items 1 1 itemsA "A" noFail).1,
    (connection_lifecycle dbA dbA.menu_items 1 1 itemsA "A" noFail).2.2.2.1,
    (connection_lifecycle dbA dbA.menu_items 1 1 itemsMissing "A"
      noFail).2.2.2.2.1 ?_⟩
  decide

/-- C9: an empty items list is not rejected: the call returns 201 with
total 0 and persists exactly one Order row (total 0) and no OrderItem
rows. -/
theorem empty_items_accepted (db : DB) (uid rid : Nat) (addr : String) :
    (placeOrder db uid rid [] addr).1.status = 201 ∧
    (placeOrder db uid rid [] addr).1.total_amount = some 0 ∧
    (placeOrder db uid rid [] addr).2.1.orders =
      db.orders ++ [newOrderRow db uid rid 0 addr] ∧
    (placeOrder db uid rid [] addr).2.1.order_items = db.order_items := by
  have hrun : runTx db db.menu_items uid rid [] addr noFail =
      .ok ((insertOrder db uid rid 0 addr).1, db.next_order_id, 0) := rfl
  rw [placeOrder, placeOrderGen, hrun]
  exact ⟨rfl, rfl, rfl, rfl⟩

/-- C8: every Order row created by a `placeOrder` call has status `pending`
and carries exactly the total the call computed and returned; no order in
any other status is ever created by the handler. -/
theorem order_status_pending (db : DB) (uid rid : Nat)
    (items : List OrderItemInput) (addr : String) :
    ∀ o ∈ (placeOrder db uid rid items addr).2.1.orders, o ∉ db.orders →
      o.status = "pending" ∧
      some o.total_amount = (placeOrder db uid rid items addr).1.total_amount
      := by
  intro o ho hnew
  rw [placeOrder] at ho ⊢
  cases htx : runTx db db.menu_items uid rid items addr noFail with
  | error e =>
    rw [placeOrderGen, htx] at ho
    have ho' : o ∈ db.orders := ho
    exact absurd ho' hnew
  | ok v =>
    obtain ⟨db2, oid, total⟩ := v
    rw [placeOrderGen, htx] at ho ⊢
    have ho' : o ∈ db2.orders := ho
    obtain ⟨hoid, htotal, hall, k1, k2, k3, k4, k5, k6, k7, k8⟩ :=
      runTx_ok_spec db db.menu_items uid rid items addr noFail db2 oid
        total htx
    rw [k3] at ho'
    rcases List.mem_append.mp ho' with hold | hnewrow
    · exact absurd hold hnew
    · rcases List.mem_singleton.mp hnewrow with rfl
      exact ⟨rfl, rfl⟩

/-- Witness for C8: the order row created on the spec's scenario fixture is
in the final state, has status `pending` and carries the returned total. -/
theorem order_status_pending_witness :
    newOrderRow dbA 1 1 (specTotal dbA.menu_items itemsA) "A" ∈
      (placeOrder dbA 1 1 itemsA "A").2.1.orders ∧
    (newOrderRow dbA 1 1 (specTotal dbA.menu_items itemsA) "A").status =
      "pending" ∧
    some (newOrderRow dbA 1 1 (specTotal dbA.menu_items itemsA)
        "A").total_amount =
      (placeOrder dbA 1 1 itemsA "A").1.total_amount := by
  obtain ⟨db', heq, m1, m2, m3, m4, m5, m6, m7⟩ :=
    placeOrderGen_success dbA dbA.menu_items 1 1 itemsA "A"
      (by decide) (by decide)
  have hmem : newOrderRow dbA 1 1 (specTotal dbA.menu_items itemsA) "A" ∈
      (placeOrder dbA 1 1 itemsA "A").2.1.orders := by
    rw [placeOrder, heq]
    show _ ∈ db'.orders
    rw [m2]
    exact List.mem_append_right _ (List.mem_singleton.mpr rfl)
  have hnot : newOrderRow dbA 1 1 (specTotal dbA.menu_items itemsA) "A" ∉
      dbA.orders := by
    simp [dbA]
  obtain ⟨h1, h2⟩ := order_status_pending dbA 1 1 itemsA "A" _ hmem hnot
  exact ⟨hmem, h1, h2⟩

/-- C3: in every reachable database state each persisted order's
`total_amount` equals the sum of its item rows' `price × quantity`; and
every order-item row persisted by a `placeOrder` call carries exactly the
menu price read within the creating transaction. -/
theorem persisted_order_invariant :
    (∀ db : DB, Reachable db →
      ∀ o ∈ db.orders, o.total_amount = orderItemsTotal db o.id) ∧
    (∀ (db : DB) (uid rid : Nat) (items : List OrderItemInput)
        (addr : String),
      ∀ row ∈ (placeOrder db uid rid items addr).2.1.order_items,
        row ∉ db.order_items →
        some row.price = selectPrice db.menu_items row.menu_item_id) := by
  constructor
  · intro db h o ho
    exact (Reachable_WF db h).2.2 o ho
  · intro db uid rid items addr row hrow hnew
    rw [placeOrder] at hrow
    cases htx : runTx db db.menu_items uid rid items addr noFail with
    | error e =>
      rw [placeOrderGen, htx] at hrow
      have hrow' : row ∈ db.order_items := hrow
      exact absurd hrow' hnew
    | ok v =>
      obtain ⟨db2, oid, total⟩ := v
      rw [placeOrderGen, htx] at hrow
      have hrow' : row ∈ db2.order_items := hrow
      obtain ⟨hoid, htotal, hall, k1, k2, k3, k4, k5, k6, k7, k8⟩ :=
        runTx_ok_spec db db.menu_items uid rid items addr noFail db2 oid
          total htx
      rcases k5 row hrow' with hold | ⟨_, hp, _⟩
      · exact absurd hold hnew
      · exact hp

/-- Witness for C3: the state reached by placing the scenario order on a
fresh database satisfies the invariant at the created order. -/
theorem persisted_order_invariant_witness :
    (newOrderRow dbA 1 1 (specTotal dbA.menu_items itemsA)
        "A").total_amount =
      orderItemsTotal (placeOrder dbA 1 1 itemsA "A").2.1
        (newOrderRow dbA 1 1 (specTotal dbA.menu_items itemsA) "A").id := by
  obtain ⟨db', heq, m1, m2, m3, m4, m5, m6, m7⟩ :=
    placeOrderGen_success dbA dbA.menu_items 1 1 itemsA "A"
      (by decide) (by decide)
  have hreach : Reachable (placeOrder dbA 1 1 itemsA "A").2.1 :=
    Reachable.step dbA _ (Reachable.init dbA.menu_items 1 1)
      (Step.place dbA 1 1 itemsA "A")
  have hmem : newOrderRow dbA 1 1 (specTotal dbA.menu_items itemsA) "A" ∈
      (placeOrder dbA 1 1 itemsA "A").2.1.orders := by
    rw [placeOrder, heq]
    show _ ∈ db'.orders
    rw [m2]
    exact List.mem_append_right _ (List.mem_singleton.mpr rfl)
  exact persisted_order_invariant.1 (placeOrder dbA 1 1 itemsA "A").2.1
    hreach _ hmem

/-- C4, evaluated at the failing input: with the first pass reading price
15.99 (so the response total is 31.98) and the second pass observing a
concurrently committed price of 17.99, the handler stores 17.99 on the
OrderItem row — the insert re-reads the menu live instead of using the
price captured in step 2. -/
theorem second_lookup_stores_changed_price :
    (placeOrderGen dbA menuB 1 1 itemsA "A" noFail).1.status = 201 ∧
    (placeOrderGen dbA menuB 1 1 itemsA "A" noFail).1.total_amount =
      some (31.98 : Rat) ∧
    ((placeOrderGen dbA menuB 1 1 itemsA "A" noFail).2.1.order_items.map
      (fun oi => oi.price)) = [(17.99 : Rat)] ∧
    (17.99 : Rat) ≠ (15.99 : Rat) := by
  norm_num [placeOrderGen, runTx, computeTotal, insertOrderItems,
    insertOrder, newOrderRow, selectPrice, dbA, menuB, itemsA, noFail,
    List.find?]

/-- C5 counterexample: the unknown-menu-item failure is surfaced with HTTP
status 500 — exactly the status a persistence failure gets — so the caller
receives no distinct NotFound client error. -/
theorem notFound_not_distinct_counterexample :
    (placeOrderGen dbA dbA.menu_items 1 1 itemsMissing "A" noFail).1.status =
      (placeOrderGen dbA dbA.menu_items 1 1 itemsA "A" failSecond).1.status ∧
    (placeOrderGen dbA dbA.menu_items 1 1 itemsMissing "A" noFail).1.status =
      500 := by decide

/-- C5 amended: both error conditions are surfaced through the same path as
HTTP 500 carrying the thrown message — the unknown-item case identifiable
only by its `Menu item N not found` message text — and on every 500 response
the transaction has been rolled back and the state is unchanged. -/
theorem error_surfacing_amended (db : DB) (menu2 : List MenuItemRow)
    (uid rid : Nat) (items : List OrderItemInput) (addr : String)
    (failAt : Nat → Bool) :
    ((∃ it ∈ items, selectPrice db.menu_items it.menu_item_id = none) →
      (placeOrderGen db menu2 uid rid items addr failAt).1.status = 500 ∧
      (∃ n, (placeOrderGen db menu2 uid rid items addr failAt).1.error =
          some ("Menu item " ++ toString n ++ " not found") ∧
        selectPrice db.menu_items n = none)) ∧
    ((placeOrderGen db menu2 uid rid items addr failAt).1.status = 500 →
      (placeOrderGen db menu2 uid rid items addr failAt).2.1 = db ∧
      Ev.rollbackTx ∈
        (placeOrderGen db menu2 uid rid items addr failAt).2.2) := by
  constructor
  · rintro ⟨it, hmem, hnone⟩
    obtain ⟨n, he, hn⟩ := runTx_missing_item db menu2 uid rid items addr
      failAt it hmem hnone
    rw [placeOrderGen_failure db menu2 uid rid items addr failAt _ he]
    exact ⟨rfl, n, rfl, hn⟩
  · intro h500
    cases htx : runTx db menu2 uid rid items addr failAt with
    | error e =>
      rw [placeOrderGen_failure db menu2 uid rid items addr failAt e htx]
      exact ⟨rfl, by simp⟩
    | ok v =>
      obtain ⟨db2, oid, total⟩ := v
      rw [placeOrderGen, htx] at h500
      have h201 : (201 : Nat) = 500 := h500
      exact absurd h201 (by decide)

/-- Witness for the amended C5: on the unknown-id-999 input the response is
500 with message `Menu item 999 not found`, the state is unchanged and a
rollback was issued. -/
theorem error_surfacing_amended_witness :
    (∃ it ∈ itemsMissing,
      selectPrice dbA.menu_items it.menu_item_id = none) ∧
    (placeOrderGen dbA dbA.menu_items 1 1 itemsMissing "A" noFail).1.status
      = 500 ∧
    (placeOrderGen dbA dbA.menu_items 1 1 itemsMissing "A" noFail).1.error
      = some "Menu item 999 not found" ∧
    (placeOrderGen dbA dbA.menu_items 1 1 itemsMissing "A" noFail).2.1
      = dbA ∧
    Ev.rollbackTx ∈
      (placeOrderGen dbA dbA.menu_items 1 1 itemsMissing "A" noFail).2.2 := by
  have hmiss : ∃ it ∈ itemsMissing,
      selectPrice dbA.menu_items it.menu_item_id = none := by decide
  have h := error_surfacing_amended dbA dbA.menu_items 1 1 itemsMissing "A"
    noFail
  have h1 := h.1 hmiss
  have h2 := h.2 h1.1
  exact ⟨hmiss, h1.1, by decide, h2.1, h2.2⟩

/-- C6: snapshot semantics — a later menu price change leaves every
persisted OrderItem row (and what `getOrder` reports) unchanged, the rows
persisted by the call keep the pre-change menu price, and a new
`placeOrder` after the change succeeds and computes with the updated
menu. -/
theorem price_snapshot_semantics (db : DB) (uid rid : Nat)
    (items : List OrderItemInput) (addr : String) (mid : Nat) (p' : Rat)
    (h : ∀ it ∈ items, (selectPrice db.menu_items it.menu_item_id).isSome) :
    (updateMenuPrice (placeOrder db uid rid items addr).2.1 mid
        p').order_items =
      (placeOrder db uid rid items addr).2.1.order_items ∧
    (∀ oid : Nat,
      getOrder (updateMenuPrice (placeOrder db uid rid items addr).2.1 mid
        p') oid = getOrder (placeOrder db uid rid items addr).2.1 oid) ∧
    (∀ row ∈ (updateMenuPrice (placeOrder db uid rid items addr).2.1 mid
        p').order_items,
      row ∉ db.order_items →
      some row.price = selectPrice db.menu_items row.menu_item_id) ∧
    ((placeOrder (updateMenuPrice (placeOrder db uid rid items addr).2.1
        mid p') uid rid items addr).1.status = 201 ∧
     (placeOrder (updateMenuPrice (placeOrder db uid rid items addr).2.1
        mid p') uid rid items addr).1.total_amount =
      some (specTotal (updateMenuPrice
        (placeOrder db uid rid items addr).2.1 mid p').menu_items items)) := by
  obtain ⟨db', heq, m1, m2, m3, m4, m5, m6, m7⟩ :=
    placeOrderGen_success db db.menu_items uid rid items addr h h
  refine ⟨rfl, fun oid => rfl, ?_, ?_⟩
  · intro row hrow hnew
    have hrow' : row ∈ (placeOrder db uid rid items addr).2.1.order_items :=
      hrow
    rw [placeOrder, heq] at hrow'
    have hrow'' : row ∈ db'.order_items := hrow'
    rcases m4 row hrow'' with hold | ⟨_, hp, _⟩
    · exact absurd hold hnew
    · exact hp
  · have hfound : ∀ it ∈ items,
        (selectPrice (updateMenuPrice (placeOrder db uid rid items
          addr).2.1 mid p').menu_items it.menu_item_id).isSome := by
      intro it hit
      rw [selectPrice_updateMenuPrice]
      have hbase : (placeOrder db uid rid items addr).2.1.menu_items =
          db.menu_items := by
        rw [placeOrder, heq]; exact m1
      rw [hbase]
      have := h it hit
      cases hsel : selectPrice db.menu_items it.menu_item_id with
      | none => rw [hsel] at this; exact absurd this (by simp)
      | some q => simp
    obtain ⟨dbU', hequ, _⟩ :=
      placeOrderGen_success (updateMenuPrice
        (placeOrder db uid rid items addr).2.1 mid p')
        (updateMenuPrice (placeOrder db uid rid items addr).2.1 mid
          p').menu_items uid rid items addr hfound hfound
    rw [placeOrder, hequ]
    exact ⟨rfl, rfl⟩

/-- Witness for C6: the spec scenario — after placing the 15.99 order, the
menu price changes to 17.99; the stored OrderItem still carries 15.99,
while a new identical order totals 35.98. -/
theorem price_snapshot_semantics_witness :
    ((updateMenuPrice (placeOrder dbA 1 1 itemsA "A").2.1 1
        (17.99 : Rat)).order_items.map (fun oi => oi.price)) =
      [(15.99 : Rat)] ∧
    (placeOrder (updateMenuPrice (placeOrder dbA 1 1 itemsA "A").2.1 1
        (17.99 : Rat)) 1 1 itemsA "A").1.total_amount =
      some (35.98 : Rat) := by
  obtain ⟨ha, hb, hc, hd1, hd2⟩ :=
    price_snapshot_semantics dbA 1 1 itemsA "A" 1 (17.99 : Rat) (by decide)
  obtain ⟨db', heq, m1, m2, m3, m4, m5, m6, m7⟩ :=
    placeOrderGen_success dbA dbA.menu_items 1 1 itemsA "A"
      (by decide) (by decide)
  constructor
  · rw [ha, placeOrder, heq]
    show db'.order_items.map (fun oi => oi.price) = [(15.99 : Rat)]
    have hlen : db'.order_items.length = 1 := by rw [m3]; rfl
    obtain ⟨r, hr⟩ := List.length_eq_one.mp hlen
    rw [hr]
    have hrmem : r ∈ db'.order_items := by
      rw [hr]; exact List.mem_singleton.mpr rfl
    rcases m4 r hrmem with hold | ⟨_, hp, it, hit, hmi, _⟩
    · exact absurd hold (by simp [dbA])
    · have hitA : it = { menu_item_id := 1,
                         quantity := 2,
                         special_instructions := none } := by
        simpa [itemsA] using hit
      subst hitA
      rw [hmi] at hp
      have hsel : selectPrice dbA.menu_items 1 = some (15.99 : Rat) := by
        norm_num [selectPrice, dbA, List.find?]
      rw [hsel] at hp
      simp [Option.some.inj hp]
  · rw [hd2, placeOrder, heq]
    show some (specTotal (updateMenuPrice db' 1 (17.99 : Rat)).menu_items
      itemsA) = some (35.98 : Rat)
    have hup : (updateMenuPrice db' 1 (17.99 : Rat)).menu_items =
        db'.menu_items.map
          (fun m => if m.id == 1 then { m with price := (17.99 : Rat) }
            else m) := rfl
    rw [hup, m1]
    norm_num [specTotal, selectPrice, dbA, itemsA, List.find?]

/-- C10: the handler never consults `is_available` — rewriting every menu
row's availability flag changes nothing about the response, the emitted
events, or the persisted rows (only the menu column itself differs), and
with every referenced id present the call still succeeds with the full
price × quantity total even when all flags are false. -/
theorem availability_ignored (db : DB) (f : Nat → Bool) (uid rid : Nat)
    (items : List OrderItemInput) (addr : String) :
    (placeOrder (setAvailability db f) uid rid items addr).1 =
      (placeOrder db uid rid items addr).1 ∧
    (placeOrder (setAvailability db f) uid rid items addr).2.2 =
      (placeOrder db uid rid items addr).2.2 ∧
    (placeOrder (setAvailability db f) uid rid items addr).2.1 =
      { (placeOrder db uid rid items addr).2.1 with
          menu_items := (setAvailability db f).menu_items } ∧
    ((∀ it ∈ items, (selectPrice db.menu_items it.menu_item_id).isSome) →
      (placeOrder (setAvailability db f) uid rid items addr).1.status =
        201 ∧
      (placeOrder (setAvailability db f) uid rid items
        addr).1.total_amount = some (specTotal db.menu_items items)) := by
  have hrun := runTx_setAvailability db f uid rid items addr
  have h123 :
      (placeOrder (setAvailability db f) uid rid items addr).1 =
        (placeOrder db uid rid items addr).1 ∧
      (placeOrder (setAvailability db f) uid rid items addr).2.2 =
        (placeOrder db uid rid items addr).2.2 ∧
      (placeOrder (setAvailability db f) uid rid items addr).2.1 =
        { (placeOrder db uid rid items addr).2.1 with
            menu_items := (setAvailability db f).menu_items } := by
    cases htx : runTx db db.menu_items uid rid items addr noFail with
    | error e =>
      rw [placeOrder, placeOrder, placeOrderGen, placeOrderGen, hrun, htx]
      exact ⟨rfl, rfl, rfl⟩
    | ok v =>
      obtain ⟨db2, oid, total⟩ := v
      rw [placeOrder, placeOrder, placeOrderGen, placeOrderGen, hrun, htx]
      exact ⟨rfl, rfl, rfl⟩
  refine ⟨h123.1, h123.2.1, h123.2.2, ?_⟩
  intro h
  have hf4 : ∀ it ∈ items,
      (selectPrice (setAvailability db f).menu_items
        it.menu_item_id).isSome := by
    intro it hit
    rw [selectPrice_setAvailability]
    exact h it hit
  obtain ⟨db', heq, m1, m2, m3, m4, m5, m6, m7⟩ :=
    placeOrderGen_success (setAvailability db f)
      (setAvailability db f).menu_items uid rid items addr hf4 hf4
  rw [placeOrder, heq]
  refine ⟨rfl, ?_⟩
  show some (specTotal (setAvailability db f).menu_items items) =
    some (specTotal db.menu_items items)
  rw [specTotal_congr db.menu_items (setAvailability db f).menu_items
    (selectPrice_setAvailability db f) items]

/-- Witness for C10: with item 1's `is_available` set to false the scenario
order still succeeds with total 31.98. -/
theorem availability_ignored_witness :
    (∀ it ∈ itemsA, (selectPrice dbA.menu_items it.menu_item_id).isSome) ∧
    ((setAvailability dbA (fun _ => false)).menu_items.map
      (fun m => m.is_available)) = [false] ∧
    (placeOrder (setAvailability dbA (fun _ => false)) 1 1 itemsA
      "A").1.status = 201 ∧
    (placeOrder (setAvailability dbA (fun _ => false)) 1 1 itemsA
      "A").1.total_amount = some (31.98 : Rat) := by
  have h := (availability_ignored dbA (fun _ => false) 1 1 itemsA
    "A").2.2.2 (by decide)
  refine ⟨by decide, by decide, h.1, ?_⟩
  rw [h.2]
  norm_num [specTotal, selectPrice, dbA, itemsA, List.find?]

end Zomato
